import Mathlib

/-!
Shallow embedding of the complexity-analysis engine of
`scripts/plot_complexity.py`: aggregation of benchmark observations
(`load_data`), the model catalog (`MODELS`), per-model fitting with
scoring (`fit_complexity_models`), best-model selection
(`determine_best_model`) and the summary-report projection.

Conventions of the embedding:
* Python float arithmetic is embedded as exact rational arithmetic (`ℚ`).
* `np.log` is transcendental, so it is abstracted as an explicit function
  parameter `logA : ℚ → ℚ`; the code's own formulas (the `+ 1` offset, the
  polynomial parts) are kept literally.
* `scipy.optimize.curve_fit` is an external solver; it is abstracted as an
  oracle `cf : String → Option (List ℚ)` giving, per model name, the fitted
  parameter vector, or `none` when the solver raises
  (non-convergence / degenerate input).
* Python's `-np.inf` initial best score is `⊥ : WithBot ℚ`.
* A raised-and-uncaught exception is an `Except.error`; a value caught by
  the `except Exception` handler in `fit_complexity_models` becomes the
  per-model `none` ("fit failed") marker, as in the source.
-/

namespace PlotComplexity

/-- Mean (`np.mean`) of a vector (source line 107): sum divided by length. -/
def mean (xs : List ℚ) : ℚ := xs.sum / xs.length

/-- Errors the numpy layer can raise inside the scoring block. -/
inductive NpErr where
  | dimensionMismatch
deriving DecidableEq

/-- Elementwise numpy subtraction `xs - ys` of 1-D vectors, with numpy's
broadcasting rule: equal lengths subtract pointwise, a length-1 operand is
broadcast, and any other shape combination raises a `ValueError`
(modelled as `NpErr.dimensionMismatch`). Used at source lines 106 and 111
(`time_values - predictions`). -/
def npSub (xs ys : List ℚ) : Except NpErr (List ℚ) :=
  if xs.length = ys.length then
    .ok ((xs.zip ys).map fun p => p.1 - p.2)
  else
    match xs, ys with
    | [x], ys => .ok (ys.map fun y => x - y)
    | xs, [y] => .ok (xs.map fun x => x - y)
    | _, _ => .error .dimensionMismatch

/-- Residual sum of squares `ss_res = Σ (observed − predicted)²`
(source line 106), for the equal-length case. -/
def ssRes (obs pred : List ℚ) : ℚ :=
  ((obs.zip pred).map fun p => (p.1 - p.2) ^ 2).sum

/-- Total sum of squares `ss_tot = Σ (observed − mean observed)²`
(source line 107). -/
def ssTot (obs : List ℚ) : ℚ :=
  (obs.map fun t => (t - mean obs) ^ 2).sum

/-- Coefficient of determination
`r_squared = 1 - ss_res / ss_tot if ss_tot > 0 else 0` (source line 108). -/
def r_squared (obs pred : List ℚ) : ℚ :=
  if 0 < ssTot obs then 1 - ssRes obs pred / ssTot obs else 0

/-- The scoring block of `fit_complexity_models` (source lines 104-111):
from observed and predicted vectors it computes the residuals
(`time_values - predictions`, which can raise on a shape mismatch), then
`R²` with the `ss_tot > 0` guard, and the mean squared residual.  The
source stores `rmse = sqrt` of that mean square (line 111); the square
root is monotone and unused by selection, so the embedding carries the
mean square itself. -/
def scoreE (obs pred : List ℚ) : Except NpErr (ℚ × ℚ) :=
  match npSub obs pred with
  | .error e => .error e
  | .ok resid =>
    let ssr := (resid.map fun r => r ^ 2).sum
    let sst := ssTot obs
    .ok (if 0 < sst then 1 - ssr / sst else 0,
         (resid.map fun r => r ^ 2).sum / resid.length)

/-- One fit result as stored in the `results` dictionary
(source lines 113-120): fitted parameter vector `popt`, the
`params` name→value mapping, the `R²` score, the mean squared residual
(`rmse` squared), and the predictions at the observed sizes. -/
structure FitRes where
  popt : List ℚ
  params : List (String × ℚ)
  r_squared : ℚ
  rmseSq : ℚ
  predictions : List ℚ
deriving DecidableEq

/-- The `R²` a selector iteration sees for one `results` entry:
`⊥` (= `-np.inf`, never exceeding any score) for a failed fit. -/
def entryScore (p : String × Option FitRes) : WithBot ℚ :=
  match p.2 with
  | none => ⊥
  | some fr => (fr.r_squared : WithBot ℚ)

/-- One iteration of the loop in `determine_best_model`
(source lines 133-136): skip failed fits, replace the running best
exactly when `result['r_squared'] > best_r2`. -/
def selStep (acc : Option String × WithBot ℚ) (p : String × Option FitRes) :
    Option String × WithBot ℚ :=
  match p.2 with
  | none => acc
  | some fr =>
    if acc.2 < (fr.r_squared : WithBot ℚ) then (some p.1, (fr.r_squared : WithBot ℚ))
    else acc

/-- Selection: `determine_best_model` (source lines 128-138) folds the per-model fit
results, in the catalog's iteration order, starting from
`best_model = None`, `best_r2 = -np.inf`. -/
def determine_best_model (fits : List (String × Option FitRes)) :
    Option String × WithBot ℚ :=
  fits.foldl selStep (none, ⊥)

/-- The maximal `R²` among the non-failed fits (`⊥` when all failed). -/
def bestScore : List (String × Option FitRes) → WithBot ℚ
  | [] => ⊥
  | p :: rest => max (entryScore p) (bestScore rest)

/-- Decidable test that an entry attains a given score. -/
def predBest (b : WithBot ℚ) (q : String × Option FitRes) : Bool :=
  decide (entryScore q = b)

/-- Modelled from the amended selection rule: the winner is the first
entry, in catalog iteration order, whose `R²` attains the maximum among
non-failed fits; `(none, ⊥)` when every fit failed.  Stated to be compared
with `determine_best_model`. -/
def specSelect (fits : List (String × Option FitRes)) :
    Option String × WithBot ℚ :=
  if bestScore fits = ⊥ then (none, ⊥)
  else
    match fits.find? (predBest (bestScore fits)) with
    | some p => (some p.1, bestScore fits)
    | none => (none, ⊥)

theorem selStep_snd (acc : Option String × WithBot ℚ)
    (p : String × Option FitRes) :
    (selStep acc p).2 = max acc.2 (entryScore p) := by
  unfold selStep entryScore
  cases p.2 with
  | none => simp
  | some fr =>
    rcases lt_or_le acc.2 (fr.r_squared : WithBot ℚ) with h | h
    · simp [if_pos h, max_eq_right (le_of_lt h)]
    · simp [if_neg (not_lt.mpr h), max_eq_left h]

theorem bestScore_le {p : String × Option FitRes}
    {fits : List (String × Option FitRes)} (hmem : p ∈ fits) :
    entryScore p ≤ bestScore fits := by
  induction fits with
  | nil => cases hmem
  | cons e rest ih =>
    rcases List.mem_cons.mp hmem with h | h
    · subst h; exact le_max_left _ _
    · exact le_trans (ih h) (le_max_right _ _)

theorem bestScore_eq_bot {fits : List (String × Option FitRes)}
    (h : ∀ p ∈ fits, p.2 = none) : bestScore fits = ⊥ := by
  induction fits with
  | nil => rfl
  | cons e rest ih =>
    have he : entryScore e = ⊥ := by
      unfold entryScore; rw [h e (List.mem_cons_self _ _)]
    have hr : bestScore rest = ⊥ := ih fun p hp => h p (List.mem_cons_of_mem _ hp)
    show max (entryScore e) (bestScore rest) = ⊥
    rw [he, hr]; exact max_self _

theorem bestScore_attained {fits : List (String × Option FitRes)}
    (h : bestScore fits ≠ ⊥) : ∃ p ∈ fits, entryScore p = bestScore fits := by
  induction fits with
  | nil => exact absurd rfl h
  | cons e rest ih =>
    have hB : bestScore (e :: rest) = max (entryScore e) (bestScore rest) := rfl
    rcases max_choice (entryScore e) (bestScore rest) with hc | hc
    · exact ⟨e, List.mem_cons_self _ _, by rw [hB, hc]⟩
    · have hrest : bestScore rest ≠ ⊥ := by
        intro hbot
        apply h
        rw [hB, hc, hbot]
      obtain ⟨p, hp, hsc⟩ := ih hrest
      exact ⟨p, List.mem_cons_of_mem _ hp, by rw [hB, hc, hsc]⟩

theorem find?_best_some {fits : List (String × Option FitRes)}
    (h : bestScore fits ≠ ⊥) :
    ∃ p, fits.find? (predBest (bestScore fits)) = some p := by
  obtain ⟨p, hp, hsc⟩ := bestScore_attained h
  have : (fits.find? (predBest (bestScore fits))).isSome := by
    rw [List.find?_isSome]
    exact ⟨p, hp, by simp [predBest, hsc]⟩
  exact Option.isSome_iff_exists.mp this

/-- Full characterization of the selection fold: if the accumulator is
already at least the best remaining score nothing changes; otherwise the
fold lands on the first entry attaining the best remaining score. -/
theorem fold_sel (fits : List (String × Option FitRes)) :
    ∀ acc : Option String × WithBot ℚ,
      (bestScore fits ≤ acc.2 → fits.foldl selStep acc = acc) ∧
      (∀ p, acc.2 < bestScore fits →
        fits.find? (predBest (bestScore fits)) = some p →
        fits.foldl selStep acc = (some p.1, bestScore fits)) := by
  induction fits with
  | nil =>
    intro acc
    refine ⟨fun _ => rfl, fun p _ hf => ?_⟩
    simp [List.find?] at hf
  | cons e rest ih =>
    intro acc
    have hB : bestScore (e :: rest) = max (entryScore e) (bestScore rest) := rfl
    constructor
    · intro hle
      rw [hB] at hle
      have hse : entryScore e ≤ acc.2 := le_trans (le_max_left _ _) hle
      have hbr : bestScore rest ≤ acc.2 := le_trans (le_max_right _ _) hle
      have hstep : selStep acc e = acc := by
        unfold selStep
        cases he : e.2 with
        | none => rfl
        | some fr =>
          have : entryScore e = (fr.r_squared : WithBot ℚ) := by
            unfold entryScore; rw [he]
          rw [this] at hse
          simp [if_neg (not_lt.mpr hse)]
      rw [List.foldl_cons, hstep]
      exact (ih acc).1 hbr
    · intro p hlt hf
      rw [List.foldl_cons]
      by_cases hpe : predBest (bestScore (e :: rest)) e
      · have hp : p = e := by
          rw [List.find?_cons_of_pos _ hpe] at hf
          exact (Option.some_injective _ hf).symm
        have hscore : entryScore e = bestScore (e :: rest) :=
          of_decide_eq_true hpe
        cases he : e.2 with
        | none =>
          exfalso
          have : entryScore e = ⊥ := by unfold entryScore; rw [he]
          rw [this] at hscore
          rw [← hscore] at hlt
          exact not_lt_bot hlt
        | some fr =>
          have hse : entryScore e = (fr.r_squared : WithBot ℚ) := by
            unfold entryScore; rw [he]
          have hlt2 : acc.2 < (fr.r_squared : WithBot ℚ) := by
            rw [← hse, hscore]; exact hlt
          have hstep : selStep acc e = (some e.1, (fr.r_squared : WithBot ℚ)) := by
            unfold selStep
            rw [he]
            simp [if_pos hlt2]
          rw [hstep]
          have hb2 : bestScore rest ≤ (fr.r_squared : WithBot ℚ) := by
            rw [← hse, hscore, hB]; exact le_max_right _ _
          have := (ih (some e.1, (fr.r_squared : WithBot ℚ))).1 hb2
          rw [this, hp, ← hse, hscore]
      · have hne : entryScore e ≠ bestScore (e :: rest) := by
          intro hh
          exact hpe (decide_eq_true hh)
        have hse_le : entryScore e ≤ bestScore (e :: rest) := by
          rw [hB]; exact le_max_left _ _
        have hse_lt : entryScore e < bestScore (e :: rest) :=
          lt_of_le_of_ne hse_le hne
        have hBr : bestScore (e :: rest) = bestScore rest := by
          rcases max_choice (entryScore e) (bestScore rest) with hc | hc
          · exact absurd (hB.trans hc).symm hne
          · exact hB.trans hc
        have hf' : rest.find? (predBest (bestScore rest)) = some p := by
          rw [← hBr]
          rw [List.find?_cons_of_neg _ (by simpa using hpe)] at hf
          exact hf
        have hacc2 : (selStep acc e).2 < bestScore rest := by
          rw [selStep_snd, ← hBr]
          exact max_lt hlt hse_lt
        have := (ih (selStep acc e)).2 p hacc2 hf'
        rw [this, hBr]

/-- One raw benchmark measurement: a row of the input CSV
(`method, percentage, num_instances, time_ms`, the columns read by
`load_data`). -/
structure Obs where
  method : String
  percentage : ℚ
  num_instances : ℕ
  time_ms : ℚ
deriving DecidableEq

/-- The grouping key of `df.groupby(['method', 'percentage',
'num_instances'])` (source line 78): note that `percentage` is part of the
key, not only `(method, num_instances)`. -/
abbrev GKey := String × ℚ × ℕ

def obsKey (o : Obs) : GKey := (o.method, o.percentage, o.num_instances)

/-- The `time_ms` values of the group with key `k`. -/
def groupTimes (obs : List Obs) (k : GKey) : List ℚ :=
  (obs.filter fun o => decide (obsKey o = k)).map fun o => o.time_ms

/-- Pandas sample variance of a group (`agg 'std'` squared): `ddof = 1`,
so a group with at most one element has an undefined (`NaN`) dispersion,
modelled as `none`.  The source's `std_time_ms` is the square root of
this; `std = 0` iff the variance is `0`. -/
def sampleVar (ts : List ℚ) : Option ℚ :=
  if ts.length ≤ 1 then none
  else some (((ts.map fun t => (t - mean ts) ^ 2).sum) / ((ts.length : ℚ) - 1))

def listMin : List ℚ → ℚ
  | [] => 0
  | t :: ts => ts.foldl min t

def listMax : List ℚ → ℚ
  | [] => 0
  | t :: ts => ts.foldl max t

/-- One row of `avg_df` (source lines 78-83): the aggregated statistics of
one `(method, percentage, num_instances)` group. -/
structure AggRow where
  method : String
  percentage : ℚ
  num_instances : ℕ
  avg_time_ms : ℚ
  var_time_ms : Option ℚ
  min_time_ms : ℚ
  max_time_ms : ℚ
deriving DecidableEq

def rowKey (r : AggRow) : GKey := (r.method, r.percentage, r.num_instances)

def mkAggRow (obs : List Obs) (k : GKey) : AggRow :=
  let ts := groupTimes obs k
  { method := k.1
    percentage := k.2.1
    num_instances := k.2.2
    avg_time_ms := ts.sum / ts.length
    var_time_ms := sampleVar ts
    min_time_ms := listMin ts
    max_time_ms := listMax ts }

/-- The aggregation of `load_data` (source lines 73-85): one output row per
distinct `(method, percentage, num_instances)` key, carrying the group's
mean, dispersion and extrema of `time_ms`.  (Pandas emits group keys in
sorted order; row order is irrelevant here because every consumer re-sorts
or re-indexes the rows, so the embedding uses the key list deduplicated.) -/
def load_data (obs : List Obs) : List AggRow :=
  ((obs.map obsKey).dedup).map (mkAggRow obs)

/-- Errors the analysis could signal for invalid input.  `load_data`
performs no emptiness validation, so no code path produces this value. -/
inductive AnalysisErr where
  | emptyInput
deriving DecidableEq

/-- Wrapper making the failure behaviour of `load_data` explicit: the source
(lines 73-85) has no check for zero observations and raises nothing; it
returns the raw rows and the aggregate unconditionally. -/
def load_dataE (obs : List Obs) : Except AnalysisErr (List Obs × List AggRow) :=
  .ok (obs, load_data obs)

/-- Distinct methods of the aggregate, `avg_df['method'].unique()`
(source line 143). -/
def methodsOf (avg : List AggRow) : List String :=
  (avg.map fun r => r.method).dedup

def sizeLe (a b : AggRow) : Prop := a.num_instances ≤ b.num_instances

instance : DecidableRel sizeLe := fun a b => Nat.decLe a.num_instances b.num_instances

instance : IsTotal AggRow sizeLe := ⟨fun a b => Nat.le_total a.num_instances b.num_instances⟩

instance : IsTrans AggRow sizeLe := ⟨fun _ _ _ => Nat.le_trans⟩

/-- One method's aggregated series as used by the plotting/fitting loop
(source line 148): the rows of that method, sorted ascending by
`num_instances`. -/
def methodSeries (avg : List AggRow) (m : String) : List AggRow :=
  List.insertionSort sizeLe (avg.filter fun r => decide (r.method = m))

theorem rowKey_mkAggRow (obs : List Obs) (k : GKey) :
    rowKey (mkAggRow obs k) = k := by
  unfold rowKey mkAggRow
  simp

theorem load_data_keys (obs : List Obs) :
    (load_data obs).map rowKey = (obs.map obsKey).dedup := by
  unfold load_data
  rw [List.map_map]
  have h : ∀ k ∈ (obs.map obsKey).dedup, (rowKey ∘ mkAggRow obs) k = k := by
    intro k _
    exact rowKey_mkAggRow obs k
  rw [List.map_congr_left h]
  exact List.map_id _

theorem load_data_mem {obs : List Obs} {r : AggRow}
    (h : r ∈ load_data obs) : ∃ k ∈ (obs.map obsKey).dedup, r = mkAggRow obs k := by
  unfold load_data at h
  obtain ⟨k, hk, hr⟩ := List.mem_map.mp h
  exact ⟨k, hk, hr.symm⟩

/-- The `MODELS` catalog (source lines 55-61), in its declared order:
model name paired with its parameter-name list (the cubic entry is
commented out in the source).  The model functions themselves are given by
`evalModelQ`, keyed by the same names. -/
def MODELS : List (String × List String) :=
  [("O(n)", ["a", "b"]),
   ("O(n²)", ["a", "b", "c"]),
   ("O(n log n)", ["a", "b"]),
   ("O(log n)", ["a", "b"])]

/-- The catalog's model functions (source lines 34-48), evaluated at a
fitted parameter vector: `linear` is `a*n + b`, `quadratic` is
`a*n**2 + b*n + c`, `nlogn` is `a*n*log(n+1) + b`, `logarithmic` is
`a*log(n+1) + b`, with `np.log` abstracted as `logA`.  An unknown model
name or a parameter vector of the wrong arity is a Python `TypeError`,
i.e., `none` (caught by the fit loop's exception handler). -/
def evalModelQ (logA : ℚ → ℚ) : String → List ℚ → ℚ → Option ℚ
  | "O(n)", [a, b], n => some (a * n + b)
  | "O(n²)", [a, b, c], n => some (a * n ^ 2 + b * n + c)
  | "O(n log n)", [a, b], n => some (a * n * logA (n + 1) + b)
  | "O(log n)", [a, b], n => some (a * logA (n + 1) + b)
  | _, _, _ => none

/-- One iteration of the loop of `fit_complexity_models`
(source lines 95-123) for catalog entry `e`: the `try` block runs
`curve_fit` (the oracle `cf`), evaluates the model's predictions at the
observed sizes, and scores them; any raised exception is caught by
`except Exception` and recorded as the `None` marker for this model
only. -/
def fitOne (logA : ℚ → ℚ) (cf : String → Option (List ℚ))
    (ns ts : List ℚ) (e : String × List String) : String × Option FitRes :=
  match cf e.1 with
  | none => (e.1, none)
  | some popt =>
    match ns.mapM (evalModelQ logA e.1 popt) with
    | none => (e.1, none)
    | some preds =>
      match scoreE ts preds with
      | .error _ => (e.1, none)
      | .ok (r, msq) =>
        (e.1, some { popt := popt
                     params := e.2.zip popt
                     r_squared := r
                     rmseSq := msq
                     predictions := preds })

/-- Fitting loop `fit_complexity_models` (source lines 88-125): one result entry per
catalog model, in catalog order. -/
def fit_complexity_models (logA : ℚ → ℚ) (cf : String → Option (List ℚ))
    (ns ts : List ℚ) : List (String × Option FitRes) :=
  MODELS.map (fitOne logA cf ns ts)

theorem fitOne_fst (logA : ℚ → ℚ) (cf : String → Option (List ℚ))
    (ns ts : List ℚ) (e : String × List String) :
    (fitOne logA cf ns ts e).1 = e.1 := by
  unfold fitOne
  repeat' split
  all_goals rfl

/-- Python `str` of the `best_model` value: `str(None)` is `"None"`. -/
def pyOptStr : Option String → String
  | none => "None"
  | some s => s

/-- The headline line of the summary report (source line 345):
`f"  Best fit model: {results['best_model']}\n"`. -/
def bestFitLine (best : Option String) : String :=
  "  Best fit model: " ++ pyOptStr best ++ "\n"

/-- Lookup `results['fit_results'].get(name)` on the `results` dictionary. -/
def lookupFit (fits : List (String × Option FitRes)) (m : String) :
    Option (Option FitRes) :=
  (fits.find? fun p => decide (p.1 = m)).map fun p => p.2

/-- The parameter mapping printed by the report (source lines 348-350):
`fit_results.get(best_model)` guarded by Python truthiness, so a `None`
best model (or a failed fit) yields no parameters line. -/
def paramsFor (fits : List (String × Option FitRes)) (best : Option String) :
    Option (List (String × ℚ)) :=
  match best with
  | none => none
  | some m =>
    match lookupFit fits m with
    | some (some fr) => some fr.params
    | _ => none

/-- The per-method analysis loop (source lines 146-167 and 343-351): each
method's fit results and selection are computed from that method's data
alone, one after the other. -/
def analyzeMethods (ms : List (String × List (String × Option FitRes))) :
    List (String × (Option String × WithBot ℚ)) :=
  ms.map fun x => (x.1, determine_best_model x.2)

/-- A fit result carrying only a score, for concrete selector inputs. -/
def mkFit (r : ℚ) : FitRes :=
  { popt := [1, 1], params := [("a", 1), ("b", 1)], r_squared := r,
    rmseSq := 0, predictions := [] }

/-- C1 (counterexample): the full catalog's fit results with an exact `R²`
tie at `1` between `O(n²)` (3 parameters) and `O(n log n)` (2 parameters).
The claim demands the 2-parameter `O(n log n)`; `determine_best_model`
returns `O(n²)`, the tying model that appears first in catalog order, so
parameter count is not consulted. -/
theorem c1_tiebreak_counterexample :
    determine_best_model
      [("O(n)", some (mkFit 0)), ("O(n²)", some (mkFit 1)),
       ("O(n log n)", some (mkFit 1)), ("O(log n)", some (mkFit 0))] =
      (some "O(n²)", ((1 : ℚ) : WithBot ℚ)) ∧
    entryScore ("O(n²)", some (mkFit 1)) = ((1 : ℚ) : WithBot ℚ) ∧
    entryScore ("O(n log n)", some (mkFit 1)) = ((1 : ℚ) : WithBot ℚ) ∧
    (MODELS.find? fun e => decide (e.1 = "O(n²)")).map (fun e => e.2.length) =
      some 3 ∧
    (MODELS.find? fun e => decide (e.1 = "O(n log n)")).map (fun e => e.2.length) =
      some 2 := by
  refine ⟨by decide, by decide, by decide, by decide, by decide⟩

/-- C1 (amended): the Selector picks the model with strictly maximal `R²`
among non-failed fits, and an exact `R²` tie is broken by the catalog's
declared (iteration) order alone — the first tying model wins; the models'
parameter counts play no role.  Formally `determine_best_model` equals
`specSelect`, the first-entry-attaining-the-maximum rule. -/
theorem c1_selection_amended (fits : List (String × Option FitRes)) :
    determine_best_model fits = specSelect fits := by
  unfold determine_best_model specSelect
  by_cases hB : bestScore fits = ⊥
  · rw [if_pos hB]
    exact (fold_sel fits (none, ⊥)).1 (le_of_eq hB)
  · rw [if_neg hB]
    obtain ⟨q, hq⟩ := find?_best_some hB
    rw [hq]
    exact (fold_sel fits (none, ⊥)).2 q (bot_lt_iff_ne_bot.mpr hB) hq

/-- C5: when every model's fit failed, `determine_best_model` returns the
explicit no-model marker `(None, -inf)` without raising or defaulting to
any model, the report's headline renders that marker visibly as
`Best fit model: None` with no fabricated parameters, and the per-method
analysis of the remaining methods proceeds unaffected (the analysis map
distributes over the method list). -/
theorem c5_no_model_selected (fits : List (String × Option FitRes))
    (h : ∀ p ∈ fits, p.2 = none)
    (xs ys : List (String × List (String × Option FitRes))) :
    determine_best_model fits = (none, ⊥) ∧
    bestFitLine (determine_best_model fits).1 = "  Best fit model: None\n" ∧
    paramsFor fits (determine_best_model fits).1 = none ∧
    analyzeMethods (xs ++ ys) = analyzeMethods xs ++ analyzeMethods ys := by
  have hbot : bestScore fits = ⊥ := bestScore_eq_bot h
  have h1 : determine_best_model fits = (none, ⊥) :=
    (fold_sel fits (none, ⊥)).1 (le_of_eq hbot)
  refine ⟨h1, ?_, ?_, ?_⟩
  · rw [h1]
    rfl
  · rw [h1]
    rfl
  · unfold analyzeMethods
    rw [List.map_append]

/-- C5 witness at a one-model, all-failed input. -/
theorem c5_no_model_selected_witness :
    (∀ p ∈ [(("O(n)" : String), (none : Option FitRes))], p.2 = none) ∧
    (determine_best_model [(("O(n)" : String), (none : Option FitRes))] = (none, ⊥) ∧
     bestFitLine (determine_best_model
       [(("O(n)" : String), (none : Option FitRes))]).1 = "  Best fit model: None\n" ∧
     paramsFor [(("O(n)" : String), (none : Option FitRes))]
       (determine_best_model [(("O(n)" : String), (none : Option FitRes))]).1 = none ∧
     analyzeMethods ([] ++ []) = analyzeMethods [] ++ analyzeMethods []) :=
  ⟨by decide, c5_no_model_selected _ (by decide) [] []⟩

/-- C10: whenever at least one catalog model fits successfully the
Selector returns some selected model — there is no minimum-quality
threshold, so a fit with negative `R²` (here `-5`) is still selected —
because the running best score starts at `-np.inf` (`⊥`), the value the
empty fold returns. -/
theorem c10_no_threshold (fits : List (String × Option FitRes))
    (h : ∃ p ∈ fits, p.2.isSome = true) :
    (determine_best_model fits).1.isSome = true ∧
    determine_best_model [("O(n)", some (mkFit (-5)))] =
      (some "O(n)", ((-5 : ℚ) : WithBot ℚ)) ∧
    determine_best_model ([] : List (String × Option FitRes)) = (none, ⊥) := by
  obtain ⟨p, hp, hs⟩ := h
  have hne : entryScore p ≠ ⊥ := by
    cases hq : p.2 with
    | none => rw [hq] at hs; simp at hs
    | some fr => simp [entryScore, hq]
  have hble := bestScore_le hp
  have hBne : bestScore fits ≠ ⊥ := by
    intro hb
    rw [hb] at hble
    exact hne (le_bot_iff.mp hble)
  obtain ⟨q, hq⟩ := find?_best_some hBne
  have hrun := (fold_sel fits (none, ⊥)).2 q (bot_lt_iff_ne_bot.mpr hBne) hq
  refine ⟨?_, by decide, rfl⟩
  unfold determine_best_model
  rw [hrun]
  rfl

/-- C10 witness at a one-model successful input. -/
theorem c10_no_threshold_witness :
    (∃ p ∈ [(("O(n)" : String), some (mkFit 2))], p.2.isSome = true) ∧
    ((determine_best_model [(("O(n)" : String), some (mkFit 2))]).1.isSome = true ∧
     determine_best_model [("O(n)", some (mkFit (-5)))] =
       (some "O(n)", ((-5 : ℚ) : WithBot ℚ)) ∧
     determine_best_model ([] : List (String × Option FitRes)) = (none, ⊥)) :=
  ⟨by decide, c10_no_threshold _ (by decide)⟩

/-- Two observations of the same method and size but different
percentages. -/
def obsTwoPct : List Obs :=
  [{ method := "A", percentage := 10, num_instances := 100, time_ms := 1 },
   { method := "A", percentage := 20, num_instances := 100, time_ms := 3 }]

/-- C2 (counterexample): `load_data` groups by
`(method, percentage, num_instances)`, so a collection with one method and
one size but two percentages yields two aggregated points for the
`(method, size)` pair `("A", 100)`, with means `1` and `3` — not the one
point with mean `2` the claim requires, and the series' sizes are not
unique. -/
theorem c2_aggregation_counterexample :
    (load_data obsTwoPct).map (fun r => (r.method, r.num_instances, r.avg_time_ms)) =
      [("A", 100, (1 : ℚ)), ("A", 100, 3)] ∧
    ¬ ((load_data obsTwoPct).map fun r => (r.method, r.num_instances)).Nodup := by
  refine ⟨?_, ?_⟩
  · simp [load_data, obsTwoPct, mkAggRow, groupTimes, obsKey, mean]
  · simp [load_data, obsTwoPct, mkAggRow, groupTimes, obsKey]

/-- C2 (amended): the Aggregator produces exactly one aggregated point per
distinct `(method, percentage, size)` triple present in the input, that
point's mean equals the arithmetic mean of the elapsed times of that
triple's group exactly, and each method's series is sorted in
non-decreasing order of size (sizes are unique only per
`(percentage, size)` pair, not per size). -/
theorem c2_aggregation_amended (obs : List Obs) (m : String) :
    (load_data obs).map rowKey = (obs.map obsKey).dedup ∧
    ((load_data obs).map rowKey).Nodup ∧
    (∀ r ∈ load_data obs,
      r.avg_time_ms =
        (groupTimes obs (rowKey r)).sum / ((groupTimes obs (rowKey r)).length : ℚ)) ∧
    (methodSeries (load_data obs) m).Sorted sizeLe := by
  refine ⟨load_data_keys obs, ?_, ?_, ?_⟩
  · rw [load_data_keys]
    exact List.nodup_dedup _
  · intro r hr
    obtain ⟨k, hk, rfl⟩ := load_data_mem hr
    rw [rowKey_mkAggRow]
    rfl
  · exact List.sorted_insertionSort _ _

/-- C2 witness at a two-group, one-method input. -/
theorem c2_aggregation_witness :
    (load_data obsTwoPct).map rowKey = (obsTwoPct.map obsKey).dedup ∧
    (mkAggRow obsTwoPct ("A", 10, 100) ∈ load_data obsTwoPct ∧
     (mkAggRow obsTwoPct ("A", 10, 100)).avg_time_ms =
       (groupTimes obsTwoPct (rowKey (mkAggRow obsTwoPct ("A", 10, 100)))).sum /
         ((groupTimes obsTwoPct (rowKey (mkAggRow obsTwoPct ("A", 10, 100)))).length : ℚ)) ∧
    (methodSeries (load_data obsTwoPct) "A").Sorted sizeLe :=
  ⟨(c2_aggregation_amended obsTwoPct "A").1,
   ⟨List.mem_map_of_mem (mkAggRow obsTwoPct) (by decide),
    (c2_aggregation_amended obsTwoPct "A").2.2.1 _
      (List.mem_map_of_mem (mkAggRow obsTwoPct) (by decide))⟩,
   (c2_aggregation_amended obsTwoPct "A").2.2.2⟩

/-- C3 (counterexample): the aggregation's dispersion is the pandas sample
standard deviation (`ddof = 1`), so a group with a single observation has
an undefined (`NaN`) standard deviation, modelled as `none` — not the
defined value `0` the claim requires. -/
theorem c3_single_obs_counterexample :
    sampleVar [(5 : ℚ)] = none ∧ sampleVar [(5 : ℚ)] ≠ some 0 := by
  exact ⟨rfl, by decide⟩

/-- C3 (amended): a group of `k ≥ 2` identical observations has sample
variance (hence sample standard deviation) exactly `0`, a defined number,
with `k` values in the group and mean equal to the common value; a group
with a single observation has an undefined (`NaN`/`none`) standard
deviation, and the aggregation records no sample count. -/
theorem c3_identical_group_amended (t : ℚ) (k : ℕ) (h : 2 ≤ k) :
    sampleVar (List.replicate k t) = some 0 ∧
    (List.replicate k t).length = k ∧
    mean (List.replicate k t) = t ∧
    sampleVar [t] = none := by
  have hk0 : (k : ℚ) ≠ 0 := Nat.cast_ne_zero.mpr (by omega)
  have hmean : mean (List.replicate k t) = t := by
    unfold mean
    rw [List.sum_replicate, List.length_replicate, nsmul_eq_mul]
    field_simp
  refine ⟨?_, List.length_replicate k t, hmean, rfl⟩
  unfold sampleVar
  rw [List.length_replicate]
  rw [if_neg (by omega)]
  have hmap : (List.replicate k t).map
      (fun x => (x - mean (List.replicate k t)) ^ 2) = List.replicate k 0 := by
    rw [hmean, List.map_replicate]
    simp
  rw [hmap, List.sum_replicate, smul_zero, zero_div]

/-- C3 witness at a group of three identical observations. -/
theorem c3_identical_group_witness :
    2 ≤ 3 ∧
    (sampleVar (List.replicate 3 (2 : ℚ)) = some 0 ∧
     (List.replicate 3 (2 : ℚ)).length = 3 ∧
     mean (List.replicate 3 (2 : ℚ)) = 2 ∧
     sampleVar [(2 : ℚ)] = none) :=
  ⟨by decide, c3_identical_group_amended 2 3 (by decide)⟩

/-- C4: for equal-length observed and predicted vectors the scoring block
returns (no exception, no NaN) exactly
`R² = 1 − SS_res/SS_tot` with `SS_res = Σ(observed−predicted)²` and
`SS_tot = Σ(observed−mean observed)²`, and exactly `0` when `SS_tot = 0`;
the `ss_tot > 0` guard covers precisely the `SS_tot = 0` case because
`SS_tot`, a sum of squares, is never negative. -/
theorem c4_scorer (obs pred : List ℚ) (h : obs.length = pred.length) :
    scoreE obs pred = .ok (r_squared obs pred, ssRes obs pred / (obs.length : ℚ)) ∧
    (ssTot obs = 0 → r_squared obs pred = 0) ∧
    (ssTot obs ≠ 0 → r_squared obs pred = 1 - ssRes obs pred / ssTot obs) ∧
    0 ≤ ssTot obs := by
  have hnn : 0 ≤ ssTot obs := by
    unfold ssTot
    apply List.sum_nonneg
    intro x hx
    obtain ⟨t, ht, rfl⟩ := List.mem_map.mp hx
    positivity
  have hsub : npSub obs pred = .ok ((obs.zip pred).map fun p => p.1 - p.2) := by
    unfold npSub
    rw [if_pos h]
  have hmm : ((obs.zip pred).map fun p => p.1 - p.2).map (fun r => r ^ 2) =
      (obs.zip pred).map fun p => (p.1 - p.2) ^ 2 := by
    rw [List.map_map]
    rfl
  have hlen : ((obs.zip pred).map fun p => p.1 - p.2).length = obs.length := by
    rw [List.length_map, List.length_zip, h, min_self]
  refine ⟨?_, ?_, ?_, hnn⟩
  · unfold scoreE
    rw [hsub]
    unfold r_squared ssRes
    dsimp only
    rw [hmm, hlen]
  · intro h0
    unfold r_squared
    rw [h0]
    simp
  · intro h0
    unfold r_squared
    rw [if_pos (lt_of_le_of_ne hnn (Ne.symm h0))]

/-- C4 witness at a concrete two-point series. -/
theorem c4_scorer_witness :
    ([(1 : ℚ), 2].length = [(1 : ℚ), 1].length) ∧
    scoreE [(1 : ℚ), 2] [(1 : ℚ), 1] =
      .ok (r_squared [(1 : ℚ), 2] [(1 : ℚ), 1],
           ssRes [(1 : ℚ), 2] [(1 : ℚ), 1] / (([(1 : ℚ), 2].length : ℕ) : ℚ)) ∧
    0 ≤ ssTot [(1 : ℚ), 2] :=
  ⟨rfl, (c4_scorer [1, 2] [1, 1] rfl).1, (c4_scorer [1, 2] [1, 1] rfl).2.2.2⟩

/-- C6: the fitting loop produces one result entry per catalog model, in
catalog order; each `(method, model)` entry is a function of that model's
own solver outcome alone (so one pair's failure cannot change a sibling
entry); a solver failure is recorded as the explicit `none` marker for
exactly that entry; and the entry is present in the loop's output — the
loop is a total function, so no failure aborts the remaining models or
methods. -/
theorem c6_per_pair_isolation (logA : ℚ → ℚ) (cf cf2 : String → Option (List ℚ))
    (ns ts : List ℚ) (e : String × List String) (hm : e ∈ MODELS)
    (hagree : cf e.1 = cf2 e.1) :
    (fit_complexity_models logA cf ns ts).map Prod.fst = MODELS.map Prod.fst ∧
    fitOne logA cf ns ts e = fitOne logA cf2 ns ts e ∧
    (cf e.1 = none → fitOne logA cf ns ts e = (e.1, none)) ∧
    fitOne logA cf ns ts e ∈ fit_complexity_models logA cf ns ts := by
  refine ⟨?_, ?_, ?_, ?_⟩
  · unfold fit_complexity_models
    rw [List.map_map]
    apply List.map_congr_left
    intro x _
    simp only [Function.comp_apply]
    exact fitOne_fst logA cf ns ts x
  · unfold fitOne
    rw [hagree]
  · intro h0
    unfold fitOne
    rw [h0]
  · exact List.mem_map_of_mem _ hm

/-- C6 witness: an always-failing solver on the first catalog model. -/
theorem c6_per_pair_isolation_witness :
    ((("O(n)" : String), ["a", "b"]) ∈ MODELS ∧
     (fun _ : String => (none : Option (List ℚ))) "O(n)" =
       (fun _ : String => (none : Option (List ℚ))) "O(n)") ∧
    ((fit_complexity_models (fun x => x) (fun _ => none) [] []).map Prod.fst =
       MODELS.map Prod.fst ∧
     fitOne (fun x => x) (fun _ => none) [] [] ("O(n)", ["a", "b"]) =
       fitOne (fun x => x) (fun _ => none) [] [] ("O(n)", ["a", "b"]) ∧
     ((fun _ : String => (none : Option (List ℚ))) "O(n)" = none →
       fitOne (fun x => x) (fun _ => none) [] [] ("O(n)", ["a", "b"]) = ("O(n)", none)) ∧
     fitOne (fun x => x) (fun _ => none) [] [] ("O(n)", ["a", "b"]) ∈
       fit_complexity_models (fun x => x) (fun _ => none) [] []) :=
  ⟨⟨by decide, rfl⟩,
   c6_per_pair_isolation (fun x => x) (fun _ => none) (fun _ => none) [] []
     ("O(n)", ["a", "b"]) (by decide) rfl⟩

/-- C7 (counterexample): given zero observations, `load_data` does not
fail — there is no emptiness check in the source, so no `EmptyInputError`
is raised; the aggregation succeeds with an empty result. -/
theorem c7_counterexample :
    load_dataE [] = .ok ([], []) ∧ (load_dataE []).isOk = true :=
  ⟨rfl, rfl⟩

/-- C7 (amended): the analysis never fails on its observation input:
`load_data` performs no emptiness validation, so zero observations
produce an empty aggregate (not an `EmptyInputError`), and the downstream
per-method loop then simply has no methods to analyze. -/
theorem c7_empty_input_amended (obs : List Obs) :
    (load_dataE obs).isOk = true ∧
    load_dataE [] = .ok ([], []) ∧
    methodsOf (load_data []) = [] :=
  ⟨rfl, rfl, rfl⟩

/-- C8: each catalog model evaluates exactly its declared formula —
`O(n)`: `a·n + b`; `O(n²)`: `a·n² + b·n + c`; `O(n log n)`:
`a·n·log(n+1) + b`; `O(log n)`: `a·log(n+1) + b` — at its declared
parameter count (2, 3, 2, 2); and thanks to the `+1` offset the
logarithm's argument `n + 1` is strictly positive for every size
`n ≥ 0`, so evaluation succeeds (returns a value, no domain failure),
including at `n = 0`. -/
theorem c8_catalog_formulas (logA : ℚ → ℚ) (n a b c : ℚ) (hn : 0 ≤ n) :
    evalModelQ logA "O(n)" [a, b] n = some (a * n + b) ∧
    evalModelQ logA "O(n²)" [a, b, c] n = some (a * n ^ 2 + b * n + c) ∧
    evalModelQ logA "O(n log n)" [a, b] n = some (a * n * logA (n + 1) + b) ∧
    evalModelQ logA "O(log n)" [a, b] n = some (a * logA (n + 1) + b) ∧
    0 < n + 1 ∧
    MODELS.map (fun e => (e.1, e.2.length)) =
      [("O(n)", 2), ("O(n²)", 3), ("O(n log n)", 2), ("O(log n)", 2)] := by
  refine ⟨rfl, rfl, rfl, rfl, by linarith, by decide⟩

/-- C8 witness at size `n = 0`. -/
theorem c8_catalog_formulas_witness :
    (0 : ℚ) ≤ 0 ∧
    (evalModelQ (fun x => x) "O(n)" [1, 2] 0 = some (1 * 0 + 2) ∧
     evalModelQ (fun x => x) "O(n²)" [1, 2, 3] 0 = some (1 * 0 ^ 2 + 2 * 0 + 3) ∧
     evalModelQ (fun x => x) "O(n log n)" [1, 2] 0 =
       some (1 * 0 * (fun x : ℚ => x) (0 + 1) + 2) ∧
     evalModelQ (fun x => x) "O(log n)" [1, 2] 0 =
       some (1 * (fun x : ℚ => x) (0 + 1) + 2) ∧
     (0 : ℚ) < 0 + 1 ∧
     MODELS.map (fun e => (e.1, e.2.length)) =
       [("O(n)", 2), ("O(n²)", 3), ("O(n log n)", 2), ("O(log n)", 2)]) :=
  ⟨le_refl 0, c8_catalog_formulas (fun x => x) 0 1 2 3 (le_refl 0)⟩

/-- C9 (counterexample): observed and predicted vectors of different,
non-broadcastable lengths make the scoring block raise the dimension
mismatch — but inside `fit_complexity_models` the blanket
`except Exception` handler converts it into the per-model fit-failed
marker instead of propagating it to the caller, contradicting the
claim. -/
theorem c9_swallowed_counterexample :
    scoreE [(1 : ℚ), 2] [(10 : ℚ), 20, 30] = .error NpErr.dimensionMismatch ∧
    fitOne (fun x => x) (fun _ => some [1, 0]) [10, 20, 30] [(1 : ℚ), 2]
      ("O(n)", ["a", "b"]) = ("O(n)", none) := by
  constructor
  · rfl
  · have hev : [(10 : ℚ), 20, 30].mapM (evalModelQ (fun x => x) "O(n)" [1, 0]) =
        some [(10 : ℚ), 20, 30] := by
      norm_num [List.mapM, List.mapM.loop, evalModelQ]
    have hsc : scoreE [(1 : ℚ), 2] [(10 : ℚ), 20, 30] =
        .error NpErr.dimensionMismatch := rfl
    simp only [fitOne, hev, hsc]

/-- C9 (amended): a length mismatch between observed and predicted
vectors (beyond numpy's length-one broadcast) raises the dimension
mismatch in the scoring block, but the per-model `try/except` of
`fit_complexity_models` catches it and records the fit-failed marker for
that `(method, model)` pair instead of letting it propagate; in the
pipeline itself the mismatch can never occur, because the predictions are
evaluated at the very sizes the observations were aggregated on
(equal-length vectors score without error). -/
theorem c9_mismatch_swallowed (obs pred ns : List ℚ) (logA : ℚ → ℚ)
    (cf : String → Option (List ℚ)) (e : String × List String) (popt : List ℚ)
    (h1 : obs.length ≠ pred.length) (h2 : obs.length ≠ 1) (h3 : pred.length ≠ 1)
    (hcf : cf e.1 = some popt)
    (hev : ns.mapM (evalModelQ logA e.1 popt) = some pred) :
    scoreE obs pred = .error NpErr.dimensionMismatch ∧
    fitOne logA cf ns obs e = (e.1, none) ∧
    (∀ obs2 pred2 : List ℚ, obs2.length = pred2.length → (scoreE obs2 pred2).isOk = true) := by
  have hsub : npSub obs pred = .error NpErr.dimensionMismatch := by
    unfold npSub
    rw [if_neg h1]
    split
    · simp at h2
    · simp at h3
    · rfl
  have hsc : scoreE obs pred = .error NpErr.dimensionMismatch := by
    unfold scoreE
    rw [hsub]
  refine ⟨hsc, ?_, ?_⟩
  · simp only [fitOne, hcf, hev, hsc]
  · intro obs2 pred2 hl
    have hsub2 : npSub obs2 pred2 = .ok ((obs2.zip pred2).map fun p => p.1 - p.2) := by
      unfold npSub
      rw [if_pos hl]
    unfold scoreE
    rw [hsub2]
    rfl

/-- C9 witness: a two-point observed series against three predictions. -/
theorem c9_mismatch_swallowed_witness :
    (([(1 : ℚ), 2].length ≠ [(10 : ℚ), 20, 30].length ∧
      [(1 : ℚ), 2].length ≠ 1 ∧ [(10 : ℚ), 20, 30].length ≠ 1) ∧
     (fun _ : String => some [(1 : ℚ), 0]) "O(n)" = some [(1 : ℚ), 0] ∧
     [(10 : ℚ), 20, 30].mapM (evalModelQ (fun x => x) "O(n)" [1, 0]) =
       some [(10 : ℚ), 20, 30]) ∧
    (scoreE [(1 : ℚ), 2] [(10 : ℚ), 20, 30] = .error NpErr.dimensionMismatch ∧
     fitOne (fun x => x) (fun _ => some [(1 : ℚ), 0]) [10, 20, 30] [(1 : ℚ), 2]
       ("O(n)", ["a", "b"]) = ("O(n)", none) ∧
     (∀ obs2 pred2 : List ℚ, obs2.length = pred2.length →
       (scoreE obs2 pred2).isOk = true)) :=
  ⟨⟨⟨by decide, by decide, by decide⟩, rfl,
    by norm_num [List.mapM, List.mapM.loop, evalModelQ]⟩,
   c9_mismatch_swallowed [1, 2] [10, 20, 30] [10, 20, 30] (fun x => x)
     (fun _ => some [(1 : ℚ), 0]) ("O(n)", ["a", "b"]) [1, 0]
     (by decide) (by decide) (by decide) rfl
     (by norm_num [List.mapM, List.mapM.loop, evalModelQ])⟩

end PlotComplexity
